import Mathlib

/-!
Shallow embedding of the tailwindcss-noise plugin.

Source files:
 - `src/index.js` - the two-parameter variant (mean, stdDev): `NoiseCache`
   with `getFilename`, `exists`, `generate`, `cleanup`; the pixel generator
   `generateNoisePattern`; the `noise` utility callback with try/catch
   fallback; the `noise-opacity` utility; plugin initialization.
 - `src/unnamed/part_000` (second chunk) - the three-parameter variant
   (mean, stdDev, opacity) with the same cache design, a three-component
   tuple parser with an opacity range check, and `noiseClassBase`
   declarations.

JS numbers are modelled as rationals (`ℚ`); `Math.round` as
round-half-up on rationals; strings as Lean `String` built from explicit
decimal digit lists so that key equality can be decided and inverted.
The output directory is a finite set of file names; the per-build
`usedPatterns` set is a finite set of strings.  Filesystem writes are
tracked by an explicit Boolean so that the "file was (re)written" facts
of the claims are expressible.
-/

namespace TailwindNoise

/-- JS `Math.round`: round half toward positive infinity, i.e. `⌊q + 1/2⌋`.
Written via `Rat.num`/`Rat.den` integer division so that it is a plain
computable function. -/
def jsRound (q : ℚ) : ℤ := (q + 1/2).num / ((q + 1/2).den : ℤ)

theorem jsRound_eq (q : ℚ) : jsRound q = ⌊q + 1/2⌋ := Rat.floor_def.symm

theorem jsRound_intCast (n : ℤ) : jsRound (n : ℚ) = n := by
  rw [jsRound_eq, show ((n : ℚ) + 1/2) = (n : ℚ) + (1/2 : ℚ) by norm_num,
    Int.floor_int_add]
  norm_num

/-- The character of a decimal digit (0 ≤ n ≤ 9 gives the ASCII digits). -/
def digitChar (n : ℕ) : Char := Char.ofNat (48 + n)

theorem digitChar_toNat {d : ℕ} (h : d < 10) : (digitChar d).toNat = 48 + d := by
  interval_cases d <;> decide

/-- Fuel-indexed decimal digit list of a natural number (most significant
digit first); `fuel > n` is always enough fuel. -/
def natDigitsAux : ℕ → ℕ → List Char
  | 0, _ => []
  | fuel + 1, n =>
    if n < 10 then [digitChar n]
    else natDigitsAux fuel (n / 10) ++ [digitChar (n % 10)]

/-- The decimal digit list of a natural number, as JS stringifies a
nonnegative integer. -/
def natDigits (n : ℕ) : List Char := natDigitsAux (n + 1) n

theorem natDigitsAux_irrel : ∀ (n f₁ f₂ : ℕ), n < f₁ → n < f₂ →
    natDigitsAux f₁ n = natDigitsAux f₂ n := by
  intro n
  induction n using Nat.strong_induction_on with
  | _ n ih =>
    intro f₁ f₂ h₁ h₂
    cases f₁ with
    | zero => omega
    | succ g₁ =>
      cases f₂ with
      | zero => omega
      | succ g₂ =>
        by_cases h10 : n < 10
        · simp [natDigitsAux, h10]
        · have hdiv : n / 10 < n := Nat.div_lt_self (by omega) (by omega)
          simp only [natDigitsAux, if_neg h10]
          rw [ih _ hdiv g₁ g₂ (by omega) (by omega)]

theorem natDigits_unfold (n : ℕ) :
    natDigits n = if n < 10 then [digitChar n]
      else natDigits (n / 10) ++ [digitChar (n % 10)] := by
  by_cases h10 : n < 10
  · simp [natDigits, natDigitsAux, h10]
  · have hdiv : n / 10 < n := Nat.div_lt_self (by omega) (by omega)
    simp only [natDigits, natDigitsAux, if_neg h10]
    congr 1
    exact natDigitsAux_irrel (n / 10) n (n / 10 + 1) hdiv (Nat.lt_succ_self _)

theorem natDigits_ne_nil (n : ℕ) : natDigits n ≠ [] := by
  rw [natDigits_unfold]
  by_cases h : n < 10 <;> simp [h]

theorem mem_natDigits_isDigitChar (n : ℕ) :
    ∀ c ∈ natDigits n, 48 ≤ c.toNat ∧ c.toNat ≤ 57 := by
  induction n using Nat.strong_induction_on with
  | _ n ih =>
    rw [natDigits_unfold]
    by_cases h : n < 10
    · simp only [if_pos h, List.mem_singleton]
      intro c hc
      subst hc
      rw [digitChar_toNat h]
      omega
    · have hdiv : n / 10 < n := Nat.div_lt_self (by omega) (by omega)
      simp only [if_neg h, List.mem_append, List.mem_singleton]
      intro c hc
      rcases hc with hc | hc
      · exact ih _ hdiv c hc
      · subst hc
        rw [digitChar_toNat (Nat.mod_lt _ (by omega))]
        have := Nat.mod_lt n (y := 10) (by omega)
        omega

theorem dash_not_mem_natDigits (n : ℕ) : '-' ∉ natDigits n := by
  intro h
  have := mem_natDigits_isDigitChar n '-' h
  revert this
  decide

/-- Decode a decimal digit list back to its value; inverse of `natDigits`. -/
def digitsVal (l : List Char) : ℕ := l.foldl (fun a c => 10 * a + (c.toNat - 48)) 0

theorem digitsVal_append_digit (l : List Char) (c : Char) :
    digitsVal (l ++ [c]) = 10 * digitsVal l + (c.toNat - 48) := by
  simp [digitsVal, List.foldl_append]

theorem digitsVal_natDigits (n : ℕ) : digitsVal (natDigits n) = n := by
  induction n using Nat.strong_induction_on with
  | _ n ih =>
    rw [natDigits_unfold]
    by_cases h : n < 10
    · simp [if_pos h, digitsVal, digitChar_toNat h]
    · have hdiv : n / 10 < n := Nat.div_lt_self (by omega) (by omega)
      rw [if_neg h, digitsVal_append_digit, ih _ hdiv,
        digitChar_toNat (Nat.mod_lt _ (by omega))]
      omega

theorem natDigits_injective : Function.Injective natDigits := by
  intro a b h
  have := congrArg digitsVal h
  rwa [digitsVal_natDigits, digitsVal_natDigits] at this

/-- JS stringification of an integer: a minus sign for negatives, then the
decimal digits. -/
def intRepr (n : ℤ) : List Char :=
  if n < 0 then '-' :: natDigits (-n).toNat else natDigits n.toNat

/-- String form of `intRepr`. -/
def intStr (n : ℤ) : String := ⟨intRepr n⟩

/-- `NoiseCache.getFilename` in `src/index.js` (line 76): the template
literal `noise-<round mean>-<round stdDev>.png`. -/
def getFilename (mean stdDev : ℚ) : String :=
  "noise-" ++ intStr (jsRound mean) ++ "-" ++ intStr (jsRound stdDev) ++ ".png"

/-- `NoiseCache.getFilename` in the three-parameter variant
(`src/unnamed/part_000`, line 177): `noise-<m>-<s>-<o>.png`. -/
def getFilename3 (mean stdDev opacity : ℚ) : String :=
  "noise-" ++ intStr (jsRound mean) ++ "-" ++ intStr (jsRound stdDev) ++ "-" ++
    intStr (jsRound opacity) ++ ".png"

theorem getFilename_100_20 : getFilename 100 20 = "noise-100-20.png" := by
  have h1 : jsRound 100 = 100 := by rw [jsRound_eq]; norm_num
  have h2 : jsRound 20 = 20 := by rw [jsRound_eq]; norm_num
  simp only [getFilename, h1, h2]
  decide

theorem getFilename_128_20 : getFilename 128 20 = "noise-128-20.png" := by
  have h1 : jsRound 128 = 128 := by rw [jsRound_eq]; norm_num
  have h2 : jsRound 20 = 20 := by rw [jsRound_eq]; norm_num
  simp only [getFilename, h1, h2]
  decide

theorem getFilename3_128_50_5 : getFilename3 128 50 5 = "noise-128-50-5.png" := by
  have h1 : jsRound 128 = 128 := by rw [jsRound_eq]; norm_num
  have h2 : jsRound 50 = 50 := by rw [jsRound_eq]; norm_num
  have h3 : jsRound 5 = 5 := by rw [jsRound_eq]; norm_num
  simp only [getFilename3, h1, h2, h3]
  decide

theorem intRepr_head_of_nonneg {n : ℤ} (h : ¬n < 0) :
    ∃ c t, intRepr n = c :: t ∧ 48 ≤ c.toNat ∧ c.toNat ≤ 57 := by
  rw [intRepr, if_neg h]
  obtain ⟨c, t, hct⟩ := List.exists_cons_of_ne_nil (natDigits_ne_nil n.toNat)
  refine ⟨c, t, hct, ?_⟩
  have := mem_natDigits_isDigitChar n.toNat c (by rw [hct]; exact List.mem_cons_self c t)
  exact this

theorem dash_not_mem_intRepr_of_nonneg {n : ℤ} (h : ¬n < 0) : '-' ∉ intRepr n := by
  rw [intRepr, if_neg h]
  exact dash_not_mem_natDigits _

/-- Unique decomposition around a separator that occurs in neither prefix. -/
theorem append_dash_inj : ∀ {a₁ a₂ b₁ b₂ : List Char},
    a₁ ++ '-' :: b₁ = a₂ ++ '-' :: b₂ → '-' ∉ a₁ → '-' ∉ a₂ →
    a₁ = a₂ ∧ b₁ = b₂ := by
  intro a₁
  induction a₁ with
  | nil =>
    intro a₂ b₁ b₂ h h₁ h₂
    cases a₂ with
    | nil => simpa using h
    | cons c t =>
      exfalso
      apply h₂
      simp only [List.nil_append, List.cons_append, List.cons.injEq] at h
      rw [← h.1]
      exact List.mem_cons_self _ _
  | cons c t ih =>
    intro a₂ b₁ b₂ h h₁ h₂
    cases a₂ with
    | nil =>
      exfalso
      apply h₁
      simp only [List.cons_append, List.nil_append, List.cons.injEq] at h
      rw [h.1]
      exact List.mem_cons_self _ _
    | cons d u =>
      simp only [List.cons_append, List.cons.injEq] at h
      obtain ⟨hc, hrest⟩ := h
      have h₁t : '-' ∉ t := fun hm => h₁ (List.mem_cons_of_mem _ hm)
      have h₂u : '-' ∉ u := fun hm => h₂ (List.mem_cons_of_mem _ hm)
      obtain ⟨he, hb⟩ := ih hrest h₁t h₂u
      exact ⟨by rw [hc, he], hb⟩

theorem intRepr_injective : Function.Injective intRepr := by
  intro a b h
  by_cases ha : a < 0 <;> by_cases hb : b < 0
  · rw [intRepr, if_pos ha, intRepr, if_pos hb] at h
    have := natDigits_injective (List.cons_injective h)
    omega
  · exfalso
    obtain ⟨c, t, hct, hc, _⟩ := intRepr_head_of_nonneg hb
    rw [hct, intRepr, if_pos ha] at h
    have : ('-' : Char) = c := (List.cons.injEq _ _ _ _ ▸ h).1
    rw [← this] at hc
    revert hc
    decide
  · exfalso
    obtain ⟨c, t, hct, hc, _⟩ := intRepr_head_of_nonneg ha
    rw [hct, intRepr, if_pos hb] at h
    have : c = '-' := (List.cons.injEq _ _ _ _ ▸ h).1
    rw [this] at hc
    revert hc
    decide
  · rw [intRepr, if_neg ha, intRepr, if_neg hb] at h
    have := natDigits_injective h
    omega

/-- A leading optional minus sign then digits, followed by a dash and some
tail, decomposes uniquely: this is what makes the cache key format
invertible even for negative rounded parameters. -/
theorem intRepr_dash_inj {m₁ m₂ : ℤ} {b₁ b₂ : List Char}
    (h : intRepr m₁ ++ '-' :: b₁ = intRepr m₂ ++ '-' :: b₂) :
    m₁ = m₂ ∧ b₁ = b₂ := by
  by_cases h₁ : m₁ < 0 <;> by_cases h₂ : m₂ < 0
  · rw [intRepr, if_pos h₁, intRepr, if_pos h₂] at h
    simp only [List.cons_append, List.cons.injEq, true_and] at h
    obtain ⟨hd, hb⟩ := append_dash_inj h (dash_not_mem_natDigits _)
      (dash_not_mem_natDigits _)
    have := natDigits_injective hd
    constructor
    · omega
    · exact hb
  · exfalso
    obtain ⟨c, t, hct, hc, _⟩ := intRepr_head_of_nonneg h₂
    rw [intRepr, if_pos h₁, hct] at h
    simp only [List.cons_append, List.cons.injEq] at h
    have : ('-' : Char) = c := h.1
    rw [← this] at hc
    revert hc
    decide
  · exfalso
    obtain ⟨c, t, hct, hc, _⟩ := intRepr_head_of_nonneg h₁
    rw [hct, intRepr, if_pos h₂] at h
    simp only [List.cons_append, List.cons.injEq] at h
    have : c = '-' := h.1
    rw [this] at hc
    revert hc
    decide
  · obtain ⟨hd, hb⟩ := append_dash_inj h (dash_not_mem_intRepr_of_nonneg h₁)
      (dash_not_mem_intRepr_of_nonneg h₂)
    exact ⟨intRepr_injective hd, hb⟩

theorem getFilename_data (mean stdDev : ℚ) :
    (getFilename mean stdDev).data =
      "noise-".data ++ (intRepr (jsRound mean) ++
        '-' :: (intRepr (jsRound stdDev) ++ ".png".data)) := by
  simp [getFilename, String.data_append, intStr]

/-- C6 core: the cache key of the two-parameter variant is equal exactly
when the rounded components are equal. -/
theorem getFilename_eq_iff (m₁ s₁ m₂ s₂ : ℚ) :
    getFilename m₁ s₁ = getFilename m₂ s₂ ↔
      (jsRound m₁ = jsRound m₂ ∧ jsRound s₁ = jsRound s₂) := by
  constructor
  · intro h
    have hd := congrArg String.data h
    rw [getFilename_data, getFilename_data] at hd
    have hmid := List.append_cancel_left hd
    obtain ⟨hm, hs⟩ := intRepr_dash_inj hmid
    refine ⟨hm, ?_⟩
    have := List.append_cancel_right hs
    exact intRepr_injective this
  · intro ⟨hm, hs⟩
    rw [getFilename, getFilename, hm, hs]

theorem getFilename3_data (mean stdDev opacity : ℚ) :
    (getFilename3 mean stdDev opacity).data =
      "noise-".data ++ (intRepr (jsRound mean) ++
        '-' :: (intRepr (jsRound stdDev) ++
          '-' :: (intRepr (jsRound opacity) ++ ".png".data))) := by
  simp [getFilename3, String.data_append, intStr]

/-- C6 core for the three-parameter variant. -/
theorem getFilename3_eq_iff (m₁ s₁ o₁ m₂ s₂ o₂ : ℚ) :
    getFilename3 m₁ s₁ o₁ = getFilename3 m₂ s₂ o₂ ↔
      (jsRound m₁ = jsRound m₂ ∧ jsRound s₁ = jsRound s₂ ∧
        jsRound o₁ = jsRound o₂) := by
  constructor
  · intro h
    have hd := congrArg String.data h
    rw [getFilename3_data, getFilename3_data] at hd
    have hmid := List.append_cancel_left hd
    obtain ⟨hm, hrest⟩ := intRepr_dash_inj hmid
    obtain ⟨hs, htail⟩ := intRepr_dash_inj hrest
    refine ⟨hm, hs, ?_⟩
    exact intRepr_injective (List.append_cancel_right htail)
  · intro ⟨hm, hs, ho⟩
    rw [getFilename3, getFilename3, hm, hs, ho]

/-- The cleanup name filter (`src/index.js` line 113):
`file.startsWith('noise-') && file.endsWith('.png')`. -/
def isCacheFile (f : String) : Bool :=
  "noise-".data.isPrefixOf f.data && ".png".data.isSuffixOf f.data

theorem isCacheFile_getFilename (mean stdDev : ℚ) :
    isCacheFile (getFilename mean stdDev) = true := by
  rw [isCacheFile]
  rw [Bool.and_eq_true, List.isPrefixOf_iff_prefix, List.isSuffixOf_iff_suffix]
  rw [getFilename_data]
  constructor
  · exact List.prefix_append _ _
  · have : "noise-".data ++ (intRepr (jsRound mean) ++
        '-' :: (intRepr (jsRound stdDev) ++ ".png".data)) =
        ("noise-".data ++ intRepr (jsRound mean) ++
          '-' :: intRepr (jsRound stdDev)) ++ ".png".data := by
      simp
    rw [this]
    exact List.suffix_append _ _

theorem isCacheFile_getFilename3 (mean stdDev opacity : ℚ) :
    isCacheFile (getFilename3 mean stdDev opacity) = true := by
  rw [isCacheFile]
  rw [Bool.and_eq_true, List.isPrefixOf_iff_prefix, List.isSuffixOf_iff_suffix]
  rw [getFilename3_data]
  constructor
  · exact List.prefix_append _ _
  · have : "noise-".data ++ (intRepr (jsRound mean) ++
        '-' :: (intRepr (jsRound stdDev) ++
          '-' :: (intRepr (jsRound opacity) ++ ".png".data))) =
        ("noise-".data ++ intRepr (jsRound mean) ++
          '-' :: intRepr (jsRound stdDev) ++
          '-' :: intRepr (jsRound opacity)) ++ ".png".data := by
      simp
    rw [this]
    exact List.suffix_append _ _

/-- The state a `NoiseCache` instance sees: the contents of the output
directory (as a finite set of file names; the filesystem is the cache, no
contents are modelled) and the per-build `usedPatterns` live set. -/
@[ext]
structure CacheState where
  files : Finset String
  usedPatterns : Finset String
  deriving DecidableEq

/-- `NoiseCache.exists` (`src/index.js` line 84): filesystem presence of
the file named by the derived cache key. -/
def existsFile (mean stdDev : ℚ) (s : CacheState) : Prop :=
  getFilename mean stdDev ∈ s.files

instance (mean stdDev : ℚ) (s : CacheState) : Decidable (existsFile mean stdDev s) := by
  unfold existsFile
  infer_instance

/-- Result of one `generate` call: the returned filename, the state after
the call, and whether `fs.writeFileSync` ran. -/
structure GenResult where
  filename : String
  state : CacheState
  wrote : Bool
  deriving DecidableEq

/-- `NoiseCache.generate` (`src/index.js` lines 89-103): derive the
filename, add it to `usedPatterns`, then encode and write the pattern only
when the file does not already exist; the filename is returned on hit and
miss alike.  The written bytes (the base64-decoded bitmap) are not
modelled; claims about the cache depend only on file presence, which the
`wrote` flag together with `files` captures. -/
def generate (mean stdDev : ℚ) (s : CacheState) : GenResult :=
  let filename := getFilename mean stdDev
  let s1 : CacheState := ⟨s.files, insert filename s.usedPatterns⟩
  if existsFile mean stdDev s1 then ⟨filename, s1, false⟩
  else ⟨filename, ⟨insert filename s1.files, s1.usedPatterns⟩, true⟩

/-- `NoiseCache.generate` of the three-parameter variant
(`src/unnamed/part_000` lines 190-204); identical shape, key includes the
rounded opacity. -/
def generate3 (mean stdDev opacity : ℚ) (s : CacheState) : GenResult :=
  let filename := getFilename3 mean stdDev opacity
  let s1 : CacheState := ⟨s.files, insert filename s.usedPatterns⟩
  if filename ∈ s1.files then ⟨filename, s1, false⟩
  else ⟨filename, ⟨insert filename s1.files, s1.usedPatterns⟩, true⟩

/-- `NoiseCache.cleanup` (`src/index.js` lines 109-121): delete every file
matching the cache naming convention that is not in `usedPatterns`, then
clear `usedPatterns`. -/
def cleanup (s : CacheState) : CacheState :=
  ⟨s.files.filter (fun f => ¬(isCacheFile f = true ∧ f ∉ s.usedPatterns)), ∅⟩

theorem generate_filename (mean stdDev : ℚ) (s : CacheState) :
    (generate mean stdDev s).filename = getFilename mean stdDev := by
  rw [generate]
  by_cases h : existsFile mean stdDev ⟨s.files, insert (getFilename mean stdDev) s.usedPatterns⟩ <;>
    simp [h]

theorem generate_state_files (mean stdDev : ℚ) (s : CacheState) :
    (generate mean stdDev s).state.files = insert (getFilename mean stdDev) s.files := by
  rw [generate]
  by_cases h : existsFile mean stdDev ⟨s.files, insert (getFilename mean stdDev) s.usedPatterns⟩
  · simp only [if_pos h]
    exact (Finset.insert_eq_self.mpr h).symm
  · simp [if_neg h]

theorem generate_state_used (mean stdDev : ℚ) (s : CacheState) :
    (generate mean stdDev s).state.usedPatterns =
      insert (getFilename mean stdDev) s.usedPatterns := by
  rw [generate]
  by_cases h : existsFile mean stdDev ⟨s.files, insert (getFilename mean stdDev) s.usedPatterns⟩ <;>
    simp [h]

theorem generate_wrote (mean stdDev : ℚ) (s : CacheState) :
    (generate mean stdDev s).wrote = !(decide (getFilename mean stdDev ∈ s.files)) := by
  rw [generate]
  by_cases h : getFilename mean stdDev ∈ s.files
  · rw [if_pos (show existsFile mean stdDev ⟨s.files, insert (getFilename mean stdDev) s.usedPatterns⟩ from h)]
    simp [h]
  · rw [if_neg (show ¬existsFile mean stdDev ⟨s.files, insert (getFilename mean stdDev) s.usedPatterns⟩ from h)]
    simp [h]

theorem mem_cleanup_files {s : CacheState} {f : String} :
    f ∈ (cleanup s).files ↔
      f ∈ s.files ∧ (isCacheFile f = true → f ∈ s.usedPatterns) := by
  rw [cleanup]
  simp only [Finset.mem_filter]
  constructor
  · intro ⟨hf, hk⟩
    refine ⟨hf, fun hc => ?_⟩
    by_contra hu
    exact hk ⟨hc, hu⟩
  · intro ⟨hf, hk⟩
    refine ⟨hf, fun hdel => hdel.2 (hk hdel.1)⟩

theorem cleanup_used (s : CacheState) : (cleanup s).usedPatterns = ∅ := rfl

theorem generate3_filename (mean stdDev opacity : ℚ) (s : CacheState) :
    (generate3 mean stdDev opacity s).filename = getFilename3 mean stdDev opacity := by
  rw [generate3]
  by_cases h : getFilename3 mean stdDev opacity ∈ s.files <;> simp [h]

theorem generate3_state_files (mean stdDev opacity : ℚ) (s : CacheState) :
    (generate3 mean stdDev opacity s).state.files =
      insert (getFilename3 mean stdDev opacity) s.files := by
  rw [generate3]
  by_cases h : getFilename3 mean stdDev opacity ∈ s.files
  · simp only [if_pos h]
    exact (Finset.insert_eq_self.mpr h).symm
  · simp [if_neg h]

theorem generate3_state_used (mean stdDev opacity : ℚ) (s : CacheState) :
    (generate3 mean stdDev opacity s).state.usedPatterns =
      insert (getFilename3 mean stdDev opacity) s.usedPatterns := by
  rw [generate3]
  by_cases h : getFilename3 mean stdDev opacity ∈ s.files <;> simp [h]

theorem generate3_wrote (mean stdDev opacity : ℚ) (s : CacheState) :
    (generate3 mean stdDev opacity s).wrote =
      !(decide (getFilename3 mean stdDev opacity ∈ s.files)) := by
  rw [generate3]
  by_cases h : getFilename3 mean stdDev opacity ∈ s.files <;> simp [h]

/-- One build generating each key of a list in order, as the utility
callbacks do during style compilation. -/
def generateAll : List (ℚ × ℚ) → CacheState → CacheState
  | [], s => s
  | p :: ps, s => generateAll ps (generate p.1 p.2 s).state

/-- The filenames of a key list. -/
def filenamesOf (K : List (ℚ × ℚ)) : Finset String :=
  (K.map fun p => getFilename p.1 p.2).toFinset

theorem generateAll_files (K : List (ℚ × ℚ)) :
    ∀ s : CacheState, (generateAll K s).files = s.files ∪ filenamesOf K := by
  induction K with
  | nil => intro s; simp [generateAll, filenamesOf]
  | cons p ps ih =>
    intro s
    rw [generateAll, ih, generate_state_files]
    simp only [filenamesOf, List.map_cons, List.toFinset_cons]
    rw [Finset.insert_union, Finset.union_insert]

theorem generateAll_used (K : List (ℚ × ℚ)) :
    ∀ s : CacheState, (generateAll K s).usedPatterns = s.usedPatterns ∪ filenamesOf K := by
  induction K with
  | nil => intro s; simp [generateAll, filenamesOf]
  | cons p ps ih =>
    intro s
    rw [generateAll, ih, generate_state_used]
    simp only [filenamesOf, List.map_cons, List.toFinset_cons]
    rw [Finset.insert_union, Finset.union_insert]

theorem mem_filenamesOf_isCacheFile {K : List (ℚ × ℚ)} {f : String}
    (h : f ∈ filenamesOf K) : isCacheFile f = true := by
  rw [filenamesOf, List.mem_toFinset, List.mem_map] at h
  obtain ⟨p, _, hp⟩ := h
  rw [← hp]
  exact isCacheFile_getFilename p.1 p.2

/-- Plugin initialization of the two-parameter variant (`src/index.js`
lines 135-141): a fresh `NoiseCache` (empty live set over the persisted
output directory), `cache.cleanup()`, then
`cache.generate(defaultMean, defaultStdDev)` with defaults 128 and 20. -/
def pluginInit (files0 : Finset String) : GenResult :=
  generate 128 20 (cleanup ⟨files0, ∅⟩)

/-- Plugin initialization of the three-parameter variant
(`src/unnamed/part_000` lines 240-248): defaults are mean 128, stdDev 50,
opacity 5. -/
def pluginInit3 (files0 : Finset String) : GenResult :=
  generate3 128 50 5 (cleanup ⟨files0, ∅⟩)

/-- One build of the two-parameter plugin that resolves the `subtle`
preset: initialization, then the `noise` utility callback receives the
preset value `"100,20"` and calls `cache.generate(100, 20)` (see
`parse2_100_20` below for the parse step). -/
def buildSubtle (files0 : Finset String) : GenResult :=
  generate 100 20 (pluginInit files0).state

theorem cleanup_empty_used_removes_cache {F : Finset String} {f : String}
    (hc : isCacheFile f = true) : f ∉ (cleanup ⟨F, ∅⟩).files := by
  intro h
  rw [mem_cleanup_files] at h
  exact Finset.not_mem_empty f (h.2 hc)

theorem buildSubtle_wrote (files0 : Finset String) :
    (buildSubtle files0).wrote = true := by
  rw [buildSubtle, generate_wrote, pluginInit, generate_state_files]
  have h1 : getFilename 100 20 ∉ (cleanup ⟨files0, ∅⟩).files :=
    cleanup_empty_used_removes_cache (isCacheFile_getFilename 100 20)
  have h2 : getFilename 100 20 ≠ getFilename 128 20 := by
    rw [getFilename_100_20, getFilename_128_20]
    decide
  simp [Finset.mem_insert, h1, h2]

/-- C1 (code bug exhibit).  The preset parameters (100, 20) key to
`noise-100-20.png`; the first build writes the file and leaves it in the
output directory; but the second build - although its cleanup runs before
its generate call, exactly as the claim stipulates - runs that cleanup with
a fresh, empty live set, which deletes the file, so the second build
rewrites it.  The claim says the second build performs no write. -/
theorem cross_build_second_write (files0 : Finset String) :
    (buildSubtle files0).filename = "noise-100-20.png" ∧
    (buildSubtle files0).wrote = true ∧
    "noise-100-20.png" ∈ (buildSubtle files0).state.files ∧
    "noise-100-20.png" ∉ (cleanup ⟨(buildSubtle files0).state.files, ∅⟩).files ∧
    (buildSubtle (buildSubtle files0).state.files).wrote = true := by
  refine ⟨?_, buildSubtle_wrote files0, ?_, ?_, buildSubtle_wrote _⟩
  · rw [buildSubtle, generate_filename, getFilename_100_20]
  · rw [buildSubtle, generate_state_files, getFilename_100_20]
    exact Finset.mem_insert_self _ _
  · exact cleanup_empty_used_removes_cache
      (by rw [← getFilename_100_20]; exact isCacheFile_getFilename 100 20)

/-- C2.  Cleanup safety: from any directory and live-set state, running
`cleanup()`, then `generate` for every key of `K`, then `cleanup()` again
leaves exactly the files of the keys of `K` among the cache-named files of
the output directory. -/
theorem cleanup_safety (s : CacheState) (K : List (ℚ × ℚ)) :
    (cleanup (generateAll K (cleanup s))).files.filter
        (fun f => isCacheFile f = true) = filenamesOf K := by
  ext f
  simp only [Finset.mem_filter, mem_cleanup_files, generateAll_files,
    generateAll_used, cleanup_used, Finset.empty_union]
  constructor
  · intro ⟨⟨_, hlive⟩, hc⟩
    exact hlive hc
  · intro hf
    have hc := mem_filenamesOf_isCacheFile hf
    exact ⟨⟨Finset.mem_union_right _ hf, fun _ => hf⟩, hc⟩

/-- C3.  Cache idempotence within one build, in both variants: when the
key's file is absent, the first `generate` writes it, the second call with
the same parameters performs no write and changes nothing, and both calls
return the same filename. -/
theorem generate_idempotent (mean stdDev opacity : ℚ) (s t : CacheState)
    (h : getFilename mean stdDev ∉ s.files)
    (h3 : getFilename3 mean stdDev opacity ∉ t.files) :
    ((generate mean stdDev s).filename =
        (generate mean stdDev (generate mean stdDev s).state).filename ∧
      (generate mean stdDev s).wrote = true ∧
      (generate mean stdDev (generate mean stdDev s).state).wrote = false ∧
      (generate mean stdDev (generate mean stdDev s).state).state =
        (generate mean stdDev s).state) ∧
    ((generate3 mean stdDev opacity t).filename =
        (generate3 mean stdDev opacity (generate3 mean stdDev opacity t).state).filename ∧
      (generate3 mean stdDev opacity t).wrote = true ∧
      (generate3 mean stdDev opacity (generate3 mean stdDev opacity t).state).wrote = false ∧
      (generate3 mean stdDev opacity (generate3 mean stdDev opacity t).state).state =
        (generate3 mean stdDev opacity t).state) := by
  constructor
  · refine ⟨by rw [generate_filename, generate_filename], ?_, ?_, ?_⟩
    · rw [generate_wrote]
      simp [h]
    · rw [generate_wrote, generate_state_files]
      simp
    · apply CacheState.ext
      · rw [generate_state_files, generate_state_files, Finset.insert_idem]
      · rw [generate_state_used, generate_state_used, Finset.insert_idem]
  · refine ⟨by rw [generate3_filename, generate3_filename], ?_, ?_, ?_⟩
    · rw [generate3_wrote]
      simp [h3]
    · rw [generate3_wrote, generate3_state_files]
      simp
    · apply CacheState.ext
      · rw [generate3_state_files, generate3_state_files, Finset.insert_idem]
      · rw [generate3_state_used, generate3_state_used, Finset.insert_idem]

/-- C3 witness: concrete instance with an empty directory. -/
theorem generate_idempotent_witness :
    (getFilename 1 2 ∉ (⟨∅, ∅⟩ : CacheState).files ∧
      getFilename3 1 2 3 ∉ (⟨∅, ∅⟩ : CacheState).files) ∧
    ((generate 1 2 ⟨∅, ∅⟩).wrote = true ∧
      (generate 1 2 (generate 1 2 ⟨∅, ∅⟩).state).wrote = false) :=
  ⟨⟨Finset.not_mem_empty _, Finset.not_mem_empty _⟩,
    ⟨(generate_idempotent 1 2 3 ⟨∅, ∅⟩ ⟨∅, ∅⟩ (Finset.not_mem_empty _)
      (Finset.not_mem_empty _)).1.2.1, (generate_idempotent 1 2 3 ⟨∅, ∅⟩ ⟨∅, ∅⟩
      (Finset.not_mem_empty _) (Finset.not_mem_empty _)).1.2.2.1⟩⟩

/-- C6.  Determinism of keying in both variants: two parameter tuples give
the same cache filename exactly when their rounded integer components are
equal. -/
theorem filename_keying_iff (m₁ s₁ o₁ m₂ s₂ o₂ : ℚ) :
    (getFilename m₁ s₁ = getFilename m₂ s₂ ↔
      (jsRound m₁ = jsRound m₂ ∧ jsRound s₁ = jsRound s₂)) ∧
    (getFilename3 m₁ s₁ o₁ = getFilename3 m₂ s₂ o₂ ↔
      (jsRound m₁ = jsRound m₂ ∧ jsRound s₁ = jsRound s₂ ∧
        jsRound o₁ = jsRound o₂)) :=
  ⟨getFilename_eq_iff m₁ s₁ m₂ s₂, getFilename3_eq_iff m₁ s₁ o₁ m₂ s₂ o₂⟩

/-- `NoiseCache.generate` with a fallible `fs.writeFileSync`: `writeOk`
injects a filesystem failure into the one write the function performs.
The source adds the filename to `this.usedPatterns` before the existence
check and the write, so the live-set insertion is visible even when the
write throws (the error propagates to the caller, filesystem unchanged). -/
def generateE (mean stdDev : ℚ) (writeOk : Bool) (s : CacheState) :
    CacheState × Except String String :=
  let filename := getFilename mean stdDev
  let s1 : CacheState := ⟨s.files, insert filename s.usedPatterns⟩
  if filename ∈ s1.files then (s1, Except.ok filename)
  else if writeOk then (⟨insert filename s1.files, s1.usedPatterns⟩, Except.ok filename)
  else (s1, Except.error filename)

/-- C9.  The key is in the live set whatever the write outcome; in
particular when the file is absent and the write fails, the call errors
out yet the key is already live (the mutation is not rolled back). -/
theorem generate_liveset_on_error (mean stdDev : ℚ) (writeOk : Bool)
    (s : CacheState) (h : getFilename mean stdDev ∉ s.files) :
    getFilename mean stdDev ∈ (generateE mean stdDev writeOk s).1.usedPatterns ∧
    (writeOk = false →
      (generateE mean stdDev writeOk s).2 =
        Except.error (getFilename mean stdDev)) := by
  rw [generateE]
  simp only [if_neg h]
  cases writeOk with
  | false => simp
  | true => simp

/-- C9 witness. -/
theorem generate_liveset_on_error_witness :
    getFilename 3 4 ∉ (⟨∅, ∅⟩ : CacheState).files ∧
    getFilename 3 4 ∈ (generateE 3 4 false ⟨∅, ∅⟩).1.usedPatterns ∧
    (generateE 3 4 false ⟨∅, ∅⟩).2 = Except.error (getFilename 3 4) :=
  ⟨Finset.not_mem_empty _,
    (generate_liveset_on_error 3 4 false ⟨∅, ∅⟩ (Finset.not_mem_empty _)).1,
    (generate_liveset_on_error 3 4 false ⟨∅, ∅⟩ (Finset.not_mem_empty _)).2 rfl⟩

/-- ASCII whitespace, as JS `trim` and `parseInt` skip it (the JS set also
has Unicode space classes; only ASCII occurs in utility values). -/
def isWs (c : Char) : Bool := c = ' ' || c = '\t' || c = '\n' || c = '\r'

/-- JS `String.prototype.trim` on the character list. -/
def jsTrim (cs : List Char) : List Char :=
  ((cs.dropWhile isWs).reverse.dropWhile isWs).reverse

/-- JS `String.prototype.split` with a one-character separator:
`"a,b"` gives `["a","b"]`, `""` gives `[""]`, `"a,"` gives `["a",""]`. -/
def jsSplit (sep : Char) : List Char → List (List Char)
  | [] => [[]]
  | c :: cs =>
    if c = sep then [] :: jsSplit sep cs
    else
      match jsSplit sep cs with
      | t :: ts => (c :: t) :: ts
      | [] => [[c]]

def isHexDigit (c : Char) : Bool :=
  c.isDigit || (97 ≤ c.toNat && c.toNat ≤ 102) || (65 ≤ c.toNat && c.toNat ≤ 70)

def hexDigitVal (c : Char) : ℕ :=
  if c.toNat ≤ 57 then c.toNat - 48
  else if c.toNat ≤ 70 then c.toNat - 55
  else c.toNat - 87

def hexVal (l : List Char) : ℕ := l.foldl (fun a c => 16 * a + hexDigitVal c) 0

/-- The unsigned part of JS `parseInt` with no radix argument: a `0x`/`0X`
prefix selects base 16, otherwise the longest leading run of decimal
digits; `NaN` (modelled as `none`) when that run is empty. -/
def parseUnsigned : List Char → Option ℤ
  | '0' :: 'x' :: r =>
    let hs := r.takeWhile isHexDigit
    if hs = [] then none else some (hexVal hs)
  | '0' :: 'X' :: r =>
    let hs := r.takeWhile isHexDigit
    if hs = [] then none else some (hexVal hs)
  | cs =>
    let ds := cs.takeWhile Char.isDigit
    if ds = [] then none else some (digitsVal ds)

/-- An optional leading sign before the unsigned part. -/
def parseSigned : List Char → Option ℤ
  | '-' :: r => (parseUnsigned r).map (fun n => -n)
  | '+' :: r => parseUnsigned r
  | cs => parseUnsigned cs

/-- JS `parseInt(str)`: skip leading whitespace, then sign and unsigned
part. -/
def jsParseInt (cs : List Char) : Option ℤ := parseSigned (cs.dropWhile isWs)

/-- The validation of the two-parameter `noise` utility callback
(`src/index.js` lines 174-185): throw on a falsy or comma-free value,
split on commas and trim each component, destructure the first two
(extra components are dropped by the destructuring), `parseInt` each,
throw on `NaN`.  `none` models the thrown-and-caught validation error.
The unreachable sub-two-component case of the destructuring is also
`none` (in JS it would make `parseInt(undefined)` give `NaN`). -/
def parse2 (v : String) : Option (ℤ × ℤ) :=
  if v.data = [] ∨ v.data.contains ',' = false then none
  else
    match (jsSplit ',' v.data).map jsTrim with
    | mS :: sS :: _ =>
      match jsParseInt mS, jsParseInt sS with
      | some m, some sd => some (m, sd)
      | _, _ => none
    | _ => none

/-- The validation of the three-parameter variant
(`src/unnamed/part_000` lines 258-274): as `parse2` but destructuring
three components (each `parseInt` argument is trimmed a second time in
the source), and the parsed opacity must satisfy
`!(opacity < 0 || opacity > 100)`.  When the split yields fewer than
three components the destructured `opacityStr` is `undefined` and
`opacityStr.trim()` throws a `TypeError`, landing in the same catch:
modelled by the final `none` arm. -/
def parse3 (v : String) : Option (ℤ × ℤ × ℤ) :=
  if v.data = [] ∨ v.data.contains ',' = false then none
  else
    match (jsSplit ',' v.data).map jsTrim with
    | mS :: sS :: oS :: _ =>
      match jsParseInt (jsTrim mS), jsParseInt (jsTrim sS), jsParseInt (jsTrim oS) with
      | some m, some sd, some o =>
        if o < 0 ∨ o > 100 then none else some (m, sd, o)
      | _, _, _ => none
    | _ => none

/-- The `&::before` pseudo-element block of the two-parameter `noise`
utility declarations. -/
structure BeforeStyle where
  content : String
  position : String
  top : String
  left : String
  width : String
  height : String
  backgroundImage : String
  backgroundRepeat : String
  pointerEvents : String
  zIndex : String
  opacity : String
  deriving DecidableEq

/-- The declaration object the two-parameter `noise` utility returns; the
two custom properties hold the numbers `mean` and `stdDev` in the source,
kept here as integers. -/
structure NoiseDecl where
  noiseMean : ℤ
  noiseDev : ℤ
  position : String
  isolation : String
  before : BeforeStyle
  childZIndex : String
  deriving DecidableEq

/-- The declaration of the success path of the two-parameter `noise`
utility (`src/index.js` lines 189-211). -/
def noiseSuccessDecl (mean stdDev : ℤ) (filename : String) : NoiseDecl :=
  { noiseMean := mean
    noiseDev := stdDev
    position := "relative"
    isolation := "isolate"
    before :=
      { content := "\"\""
        position := "absolute"
        top := "0"
        left := "0"
        width := "100%"
        height := "100%"
        backgroundImage := "url('/noise-patterns/" ++ filename ++ "')"
        backgroundRepeat := "repeat"
        pointerEvents := "none"
        zIndex := "0"
        opacity := "var(--noise-opacity, 0.05)" }
    childZIndex := "10" }

/-- The declaration of the catch path (`src/index.js` lines 217-238),
with the closure constants `defaultMean = 128`, `defaultStdDev = 20`
(lines 139-140); note its `zIndex` is `-1` and its opacity default is
`0.2`, where the success path has `0` and `0.05`. -/
def noiseFallbackDecl (filename : String) : NoiseDecl :=
  { noiseMean := 128
    noiseDev := 20
    position := "relative"
    isolation := "isolate"
    before :=
      { content := "\"\""
        position := "absolute"
        top := "0"
        left := "0"
        width := "100%"
        height := "100%"
        backgroundImage := "url('/noise-patterns/" ++ filename ++ "')"
        backgroundRepeat := "repeat"
        pointerEvents := "none"
        zIndex := "-1"
        opacity := "var(--noise-opacity, 0.2)" }
    childZIndex := "10" }

/-- The `noise` utility callback of `src/index.js` (lines 173-240): parse
the value; on success call `cache.generate(mean, stdDev)` and return the
full declaration; on any validation failure warn and return the
default-pattern declaration, calling `cache.generate` with the defaults.
Total by construction: the catch contains every thrown error. -/
def noiseUtility (s : CacheState) (v : String) : CacheState × NoiseDecl :=
  match parse2 v with
  | some (m, sd) =>
    let g := generate (m : ℚ) (sd : ℚ) s
    (g.state, noiseSuccessDecl m sd g.filename)
  | none =>
    let g := generate 128 20 s
    (g.state, noiseFallbackDecl g.filename)

/-- `noiseClassBase` of the three-parameter variant
(`src/unnamed/part_000` lines 225-230). -/
structure CssDecl where
  backgroundImage : String
  backgroundRepeat : String
  deriving DecidableEq

def noiseClassBase (filename : String) : CssDecl :=
  { backgroundImage := "url('/noise-patterns/" ++ filename ++ "')"
    backgroundRepeat := "repeat" }

/-- The `noise` utility callback of the three-parameter variant
(`src/unnamed/part_000` lines 256-288): on success `cache.generate` then
`cache.getFilename`; the catch derives the default filename
(`defaultMean = 128`, `defaultStdDev = 50`, `defaultOpacity = 5`, lines
244-246) with `getFilename` only - it does not call `generate`. -/
def noiseUtility3 (s : CacheState) (v : String) : CacheState × CssDecl :=
  match parse3 v with
  | some (m, sd, o) =>
    let g := generate3 (m : ℚ) (sd : ℚ) (o : ℚ) s
    (g.state, noiseClassBase (getFilename3 (m : ℚ) (sd : ℚ) (o : ℚ)))
  | none =>
    (s, noiseClassBase (getFilename3 128 50 5))

/-- The declaration of the `noise-opacity` utility. -/
structure OpacityDecl where
  noiseOpacity : String
  deriving DecidableEq

/-- The `noise-opacity` utility callback (`src/index.js` lines 251-260):
return a declaration setting only the `--noise-opacity` custom property.
It never touches the cache, so the state passes through unchanged. -/
def noiseOpacityUtility (s : CacheState) (v : String) : CacheState × OpacityDecl :=
  (s, { noiseOpacity := v })

theorem parse2_characterization (v : String) (m sd : ℤ) :
    parse2 v = some (m, sd) ↔
      v.data ≠ [] ∧ v.data.contains ',' = true ∧
      ∃ a b rest, (jsSplit ',' v.data).map jsTrim = a :: b :: rest ∧
        jsParseInt a = some m ∧ jsParseInt b = some sd := by
  rw [parse2]
  by_cases hguard : v.data = [] ∨ v.data.contains ',' = false
  · rw [if_pos hguard]
    rcases hguard with hnil | hcf
    · simp [hnil]
    · have hmem : ',' ∉ v.data := by simpa using hcf
      simp [hmem]
  · push_neg at hguard
    obtain ⟨hnil, hcf⟩ := hguard
    have hct : v.data.contains ',' = true := by
      cases h : v.data.contains ',' with
      | false => exact absurd h hcf
      | true => rfl
    rw [if_neg (by rw [hct]; simp [hnil])]
    rcases hsplit : (jsSplit ',' v.data).map jsTrim with _ | ⟨a, _ | ⟨b, rest⟩⟩
    · simp [hsplit]
    · simp [hsplit]
    · rcases hpa : jsParseInt a with _ | m₀
      · simp [hsplit, hpa, hnil]
      · rcases hpb : jsParseInt b with _ | sd₀
        · simp [hsplit, hpa, hpb, hnil]
        · simp only [hsplit, hpa, hpb, Option.some.injEq, Prod.mk.injEq,
            List.cons.injEq, hct, hnil, ne_eq, not_false_iff, true_and]
          constructor
          · intro ⟨hm, hs⟩
            exact ⟨a, b, rest, ⟨rfl, rfl, rfl⟩, by rw [hpa, hm], by rw [hpb, hs]⟩
          · intro ⟨a₁, b₁, r₁, ⟨ha, hb, _⟩, hm, hs⟩
            subst ha
            subst hb
            rw [hpa] at hm
            rw [hpb] at hs
            exact ⟨(Option.some.injEq _ _ ▸ hm), (Option.some.injEq _ _ ▸ hs)⟩

theorem parse3_characterization (v : String) (m sd o : ℤ) :
    parse3 v = some (m, sd, o) ↔
      v.data ≠ [] ∧ v.data.contains ',' = true ∧
      ∃ a b c rest, (jsSplit ',' v.data).map jsTrim = a :: b :: c :: rest ∧
        jsParseInt (jsTrim a) = some m ∧ jsParseInt (jsTrim b) = some sd ∧
        jsParseInt (jsTrim c) = some o ∧ 0 ≤ o ∧ o ≤ 100 := by
  rw [parse3]
  by_cases hguard : v.data = [] ∨ v.data.contains ',' = false
  · rw [if_pos hguard]
    rcases hguard with hnil | hcf
    · simp [hnil]
    · have hmem : ',' ∉ v.data := by simpa using hcf
      simp [hmem]
  · push_neg at hguard
    obtain ⟨hnil, hcf⟩ := hguard
    have hct : v.data.contains ',' = true := by
      cases h : v.data.contains ',' with
      | false => exact absurd h hcf
      | true => rfl
    rw [if_neg (by rw [hct]; simp [hnil])]
    rcases hsplit : (jsSplit ',' v.data).map jsTrim with _ | ⟨a, _ | ⟨b, _ | ⟨c, rest⟩⟩⟩
    · simp [hsplit]
    · simp [hsplit]
    · simp [hsplit]
    · rcases hpa : jsParseInt (jsTrim a) with _ | m₀
      · simp [hsplit, hpa, hnil]
      · rcases hpb : jsParseInt (jsTrim b) with _ | sd₀
        · simp [hsplit, hpa, hpb, hnil]
        · rcases hpc : jsParseInt (jsTrim c) with _ | o₀
          · simp [hsplit, hpa, hpb, hpc, hnil]
          · simp only [hsplit, hpa, hpb, hpc, hct, hnil, ne_eq, not_false_iff,
              true_and]
            by_cases hrange : o₀ < 0 ∨ o₀ > 100
            · rw [if_pos hrange]
              constructor
              · intro h
                exact Option.noConfusion h
              · rintro ⟨a₁, b₁, c₁, r₁, heq, hm, hs, ho, h0, h100⟩
                exfalso
                injection heq with ha heq1
                injection heq1 with hb heq2
                injection heq2 with hc _
                subst ha
                subst hb
                subst hc
                rw [hpc] at ho
                injection ho with ho1
                omega
            · rw [if_neg hrange]
              push_neg at hrange
              constructor
              · intro h
                injection h with h1
                injection h1 with hm h2
                injection h2 with hs ho
                exact ⟨a, b, c, rest, rfl, by rw [hpa, hm], by rw [hpb, hs],
                  by rw [hpc, ho], by omega, by omega⟩
              · rintro ⟨a₁, b₁, c₁, r₁, heq, hm, hs, ho, h0, h100⟩
                injection heq with ha heq1
                injection heq1 with hb heq2
                injection heq2 with hc _
                subst ha
                subst hb
                subst hc
                rw [hpa] at hm
                rw [hpb] at hs
                rw [hpc] at ho
                injection hm with hm1
                injection hs with hs1
                injection ho with ho1
                rw [hm1, hs1, ho1]

theorem parse2_abc : parse2 "abc" = none := by decide

theorem parse2_128_20 : parse2 "128,20" = some (128, 20) := by decide

theorem parse2_100_20 : parse2 "100,20" = some (100, 20) := by decide

theorem parse3_abc : parse3 "abc" = none := by decide

theorem parse3_128_50_5 : parse3 "128,50,5" = some (128, 50, 5) := by decide

/-- C8.  The opacity-only companion utility rewrites just the
`--noise-opacity` custom property; it makes no `generate` call, so neither
the live set nor the output directory changes. -/
theorem noise_opacity_frame (s : CacheState) (v : String) :
    (noiseOpacityUtility s v).1.files = s.files ∧
    (noiseOpacityUtility s v).1.usedPatterns = s.usedPatterns ∧
    (noiseOpacityUtility s v).2 = { noiseOpacity := v } :=
  ⟨rfl, rfl, rfl⟩

/-- C4 counterexample: in the two-parameter variant the declaration
returned for the unparsable value `"abc"` differs from the declaration
returned for the configured default parameters `"128,20"`: the fallback
hard-codes `zIndex "-1"` and opacity default `0.2` where the success path
has `"0"` and `0.05`. -/
theorem fallback_containment_counterexample :
    (noiseUtility ⟨∅, ∅⟩ "abc").2 ≠ (noiseUtility ⟨∅, ∅⟩ "128,20").2 := by
  intro h
  have hz := congrArg (fun d => d.before.zIndex) h
  simp only [noiseUtility, parse2_abc, parse2_128_20, noiseSuccessDecl,
    noiseFallbackDecl] at hz
  exact absurd hz (by decide)

/-- C4 as amended.  Invoking the two-parameter utility with `"abc"` cannot
raise (the callback is total) and yields a declaration that references the
same default-pattern file and agrees with the default-parameter
declaration on every field except the pseudo-element `z-index` (`-1`
versus `0`) and the opacity default (`0.2` versus `0.05`); in the
three-parameter variant the fallback declaration is exactly the
declaration of the configured default parameters `"128,50,5"`. -/
theorem fallback_containment_amended (s t : CacheState) :
    ((noiseUtility s "abc").2.before.backgroundImage =
        (noiseUtility s "128,20").2.before.backgroundImage ∧
      (noiseUtility s "abc").2.noiseMean = (noiseUtility s "128,20").2.noiseMean ∧
      (noiseUtility s "abc").2.noiseDev = (noiseUtility s "128,20").2.noiseDev ∧
      (noiseUtility s "abc").2.position = (noiseUtility s "128,20").2.position ∧
      (noiseUtility s "abc").2.isolation = (noiseUtility s "128,20").2.isolation ∧
      (noiseUtility s "abc").2.childZIndex =
        (noiseUtility s "128,20").2.childZIndex ∧
      (noiseUtility s "abc").2.before.zIndex = "-1" ∧
      (noiseUtility s "128,20").2.before.zIndex = "0" ∧
      (noiseUtility s "abc").2.before.opacity = "var(--noise-opacity, 0.2)" ∧
      (noiseUtility s "128,20").2.before.opacity = "var(--noise-opacity, 0.05)") ∧
    (noiseUtility3 t "abc").2 = (noiseUtility3 t "128,50,5").2 := by
  constructor
  · simp only [noiseUtility, parse2_abc, parse2_128_20, noiseSuccessDecl,
      noiseFallbackDecl, generate_filename, Int.cast_ofNat]
    simp
  · simp only [noiseUtility3, parse3_abc, parse3_128_50_5, Int.cast_ofNat]

/-- C5 counterexample: the parsers accept tuples with more components
than the expected arity - the extra components are silently dropped by
the destructuring - so "exactly the expected arity" fails in both
variants: `"1,2,3,4"` (four components) is accepted by the
three-parameter variant and `"1,2,3"` (three components) by the
two-parameter variant. -/
theorem literal_validation_counterexample :
    parse3 "1,2,3,4" = some (1, 2, 3) ∧
    (jsSplit ',' "1,2,3,4".data).length = 4 ∧
    parse2 "1,2,3" = some (1, 2) ∧
    (jsSplit ',' "1,2,3".data).length = 3 :=
  ⟨by decide, by decide, by decide, by decide⟩

/-- C5 as amended.  A literal is accepted exactly when the tuple has at
least the expected arity (extra components being ignored), each used
component parses as an integer under JS `parseInt`, and - in the
three-parameter variant - the opacity lies in `[0, 100]`; the boundary
opacities `0` and `100` are accepted while `-1` and `101` are rejected
and fall back. -/
theorem literal_validation_amended :
    (∀ (v : String) (m sd : ℤ),
      parse2 v = some (m, sd) ↔
        v.data ≠ [] ∧ v.data.contains ',' = true ∧
        ∃ a b rest, (jsSplit ',' v.data).map jsTrim = a :: b :: rest ∧
          jsParseInt a = some m ∧ jsParseInt b = some sd) ∧
    (∀ (v : String) (m sd o : ℤ),
      parse3 v = some (m, sd, o) ↔
        v.data ≠ [] ∧ v.data.contains ',' = true ∧
        ∃ a b c rest, (jsSplit ',' v.data).map jsTrim = a :: b :: c :: rest ∧
          jsParseInt (jsTrim a) = some m ∧ jsParseInt (jsTrim b) = some sd ∧
          jsParseInt (jsTrim c) = some o ∧ 0 ≤ o ∧ o ≤ 100) ∧
    (parse3 "1,2,0" = some (1, 2, 0) ∧ parse3 "1,2,100" = some (1, 2, 100) ∧
      parse3 "1,2,-1" = none ∧ parse3 "1,2,101" = none) :=
  ⟨parse2_characterization, parse3_characterization,
    by decide, by decide, by decide, by decide⟩

/-- C10.  At plugin initialization (both variants) `generate` runs with
the default parameters right after `cleanup`, so before any utility value
resolves, the default pattern file is on disk, its key is in the live set
(hence a further cleanup would not delete it), and the fallback
declaration produced for any unparsable value references exactly that
file. -/
theorem init_default_pattern (files0 g0 : Finset String) (v w : String)
    (h2 : parse2 v = none) (h3 : parse3 w = none) :
    ((pluginInit files0).filename = "noise-128-20.png" ∧
      "noise-128-20.png" ∈ (pluginInit files0).state.files ∧
      "noise-128-20.png" ∈ (pluginInit files0).state.usedPatterns ∧
      "noise-128-20.png" ∈ (cleanup (pluginInit files0).state).files ∧
      (noiseUtility (pluginInit files0).state v).2.before.backgroundImage =
        "url('/noise-patterns/noise-128-20.png')") ∧
    ((pluginInit3 g0).filename = "noise-128-50-5.png" ∧
      "noise-128-50-5.png" ∈ (pluginInit3 g0).state.files ∧
      "noise-128-50-5.png" ∈ (pluginInit3 g0).state.usedPatterns ∧
      "noise-128-50-5.png" ∈ (cleanup (pluginInit3 g0).state).files ∧
      (noiseUtility3 (pluginInit3 g0).state w).2.backgroundImage =
        "url('/noise-patterns/noise-128-50-5.png')") := by
  have hmem : "noise-128-20.png" ∈ (pluginInit files0).state.files := by
    rw [pluginInit, generate_state_files, getFilename_128_20]
    exact Finset.mem_insert_self _ _
  have hused : "noise-128-20.png" ∈ (pluginInit files0).state.usedPatterns := by
    rw [pluginInit, generate_state_used, getFilename_128_20]
    exact Finset.mem_insert_self _ _
  have hmem3 : "noise-128-50-5.png" ∈ (pluginInit3 g0).state.files := by
    rw [pluginInit3, generate3_state_files, getFilename3_128_50_5]
    exact Finset.mem_insert_self _ _
  have hused3 : "noise-128-50-5.png" ∈ (pluginInit3 g0).state.usedPatterns := by
    rw [pluginInit3, generate3_state_used, getFilename3_128_50_5]
    exact Finset.mem_insert_self _ _
  refine ⟨⟨?_, hmem, hused, ?_, ?_⟩, ⟨?_, hmem3, hused3, ?_, ?_⟩⟩
  · rw [pluginInit, generate_filename, getFilename_128_20]
  · rw [mem_cleanup_files]
    exact ⟨hmem, fun _ => hused⟩
  · simp only [noiseUtility, h2, noiseFallbackDecl, generate_filename,
      getFilename_128_20]
    decide
  · rw [pluginInit3, generate3_filename, getFilename3_128_50_5]
  · rw [mem_cleanup_files]
    exact ⟨hmem3, fun _ => hused3⟩
  · simp only [noiseUtility3, h3, noiseClassBase, getFilename3_128_50_5]
    decide

/-- C10 witness. -/
theorem init_default_pattern_witness :
    (parse2 "abc" = none ∧ parse3 "abc" = none) ∧
    (pluginInit ∅).filename = "noise-128-20.png" ∧
    "noise-128-50-5.png" ∈ (pluginInit3 ∅).state.files :=
  ⟨⟨parse2_abc, parse3_abc⟩,
    (init_default_pattern ∅ ∅ "abc" "abc" parse2_abc parse3_abc).1.1,
    (init_default_pattern ∅ ∅ "abc" "abc" parse2_abc parse3_abc).2.2.1⟩

/-- Floor of a rational, written via `Rat.num`/`Rat.den` integer division
so that it is a plain computable function. -/
def ratFloor (q : ℚ) : ℤ := q.num / (q.den : ℤ)

theorem ratFloor_eq (q : ℚ) : ratFloor q = ⌊q⌋ := Rat.floor_def.symm

/-- ECMAScript `ToUint8Clamp`, the conversion applied when a number is
assigned into an `ImageData`'s `Uint8ClampedArray` (the `data[i] = v`
stores of `generateNoisePattern`): clamp to `[0, 255]` and round to the
nearest integer, ties to even. -/
def toUint8Clamp (q : ℚ) : ℕ :=
  if q ≤ 0 then 0
  else if 255 ≤ q then 255
  else if ((ratFloor q).toNat : ℚ) + 1/2 < q then (ratFloor q).toNat + 1
  else if q < ((ratFloor q).toNat : ℚ) + 1/2 then (ratFloor q).toNat
  else if (ratFloor q).toNat % 2 = 1 then (ratFloor q).toNat + 1
  else (ratFloor q).toNat

/-- An integer already in `[0, 255]` passes through the clamped store
unchanged. -/
theorem toUint8Clamp_intCast {k : ℤ} (h0 : 0 ≤ k) (h255 : k ≤ 255) :
    toUint8Clamp (k : ℚ) = k.toNat := by
  rw [toUint8Clamp]
  by_cases hz : (k : ℚ) ≤ 0
  · have hk : k = 0 := le_antisymm (by exact_mod_cast hz) h0
    subst hk
    simp
  · rw [if_neg hz]
    by_cases hq : (255 : ℚ) ≤ (k : ℚ)
    · have hk : k = 255 := le_antisymm h255 (by exact_mod_cast hq)
      subst hk
      rw [if_pos hq]
      rfl
    · rw [if_neg hq]
      have hf : ratFloor (k : ℚ) = k := by rw [ratFloor_eq, Int.floor_intCast]
      have hcast : (((ratFloor (k : ℚ)).toNat : ℕ) : ℚ) = (k : ℚ) := by
        rw [hf]
        exact_mod_cast Int.toNat_of_nonneg h0
      rw [if_neg (by rw [hcast]; linarith), if_pos (by rw [hcast]; linarith), hf]

theorem toUint8Clamp_255 : toUint8Clamp 255 = 255 := by
  rw [toUint8Clamp]
  norm_num

/-- The clamped pixel intensity (`src/index.js` line 46, identical at
`src/unnamed/part_000` line 147):
`Math.min(255, Math.max(0, Math.floor((Z * stdDev) + mean)))`. -/
def pixelValue (mean stdDev z : ℚ) : ℤ :=
  min 255 (max 0 (ratFloor (z * stdDev + mean)))

/-- One RGBA pixel as stored in the `Uint8ClampedArray`. -/
structure RGBA where
  r : ℕ
  g : ℕ
  b : ℕ
  a : ℕ
  deriving DecidableEq

/-- The pixel loop of `generateNoisePattern` (`src/index.js` lines 44-53)
viewed at one pixel: the Box-Muller sample of pixel `i` is `zs i` (the
unseeded random source is passed explicitly), the clamped grayscale
intensity goes to the three color channels, the alpha store is the
constant 255. -/
def generateNoisePattern (mean stdDev : ℚ) (zs : ℕ → ℚ) (i : ℕ) : RGBA :=
  let p := toUint8Clamp ((pixelValue mean stdDev (zs i) : ℤ) : ℚ)
  { r := p, g := p, b := p, a := toUint8Clamp 255 }

/-- The three-parameter variant (`src/unnamed/part_000` lines 145-154):
the alpha store is `255 * (opacity / 100)`, which the clamped array
converts to the nearest byte. -/
def generateNoisePattern3 (mean stdDev opacity : ℚ) (zs : ℕ → ℚ) (i : ℕ) : RGBA :=
  let p := toUint8Clamp ((pixelValue mean stdDev (zs i) : ℤ) : ℚ)
  { r := p, g := p, b := p, a := toUint8Clamp (255 * (opacity / 100)) }

theorem alpha_opacity5 : toUint8Clamp (255 * ((5 : ℚ) / 100)) = 13 := by
  have h51 : 255 * ((5 : ℚ) / 100) = 51 / 4 := by norm_num
  have hf : ratFloor ((51 : ℚ) / 4) = 12 := by
    rw [ratFloor_eq]
    norm_num
  rw [h51, toUint8Clamp, hf]
  have ht : Int.toNat 12 = 12 := rfl
  rw [ht]
  norm_num

/-- C7 counterexample: at opacity 5 the stored alpha byte is 13, while
`255 * (5 / 100) = 12.75`: the alpha channel does not equal
`255 * (opacity / 100)` whenever that value is not an integer. -/
theorem pixel_formula_counterexample :
    (generateNoisePattern3 128 50 5 (fun _ => 0) 0).a = 13 ∧
    ((13 : ℚ) ≠ 255 * ((5 : ℚ) / 100)) := by
  constructor
  · show toUint8Clamp (255 * ((5 : ℚ) / 100)) = 13
    exact alpha_opacity5
  · norm_num

/-- C7 as amended.  Every pixel stores the clamped floor intensity
`min 255 (max 0 ⌊Z * stdDev + mean⌋)` identically in the red, green and
blue channels; alpha is 255 in the two-parameter variant, and in the
three-parameter variant it is the `Uint8ClampedArray` rounding of
`255 * (opacity / 100)` - equal to that value itself whenever the value is
an integer in range. -/
theorem pixel_formula_amended (mean stdDev opacity : ℚ) (zs : ℕ → ℚ) (i : ℕ) :
    ((generateNoisePattern mean stdDev zs i).r =
        (generateNoisePattern mean stdDev zs i).g ∧
      (generateNoisePattern mean stdDev zs i).g =
        (generateNoisePattern mean stdDev zs i).b ∧
      ((generateNoisePattern mean stdDev zs i).r : ℤ) =
        min 255 (max 0 ⌊zs i * stdDev + mean⌋) ∧
      (generateNoisePattern mean stdDev zs i).a = 255) ∧
    ((generateNoisePattern3 mean stdDev opacity zs i).r =
        (generateNoisePattern3 mean stdDev opacity zs i).g ∧
      (generateNoisePattern3 mean stdDev opacity zs i).g =
        (generateNoisePattern3 mean stdDev opacity zs i).b ∧
      ((generateNoisePattern3 mean stdDev opacity zs i).r : ℤ) =
        min 255 (max 0 ⌊zs i * stdDev + mean⌋) ∧
      (generateNoisePattern3 mean stdDev opacity zs i).a =
        toUint8Clamp (255 * (opacity / 100)) ∧
      (∀ k : ℤ, 255 * (opacity / 100) = (k : ℚ) → 0 ≤ k → k ≤ 255 →
        ((generateNoisePattern3 mean stdDev opacity zs i).a : ℤ) = k)) := by
  have hpv0 : 0 ≤ pixelValue mean stdDev (zs i) := by
    rw [pixelValue]
    simp only [le_min_iff, le_max_iff]
    constructor
    · norm_num
    · left
      rfl
  have hpv255 : pixelValue mean stdDev (zs i) ≤ 255 := min_le_left _ _
  have hr : toUint8Clamp ((pixelValue mean stdDev (zs i) : ℤ) : ℚ) =
      (pixelValue mean stdDev (zs i)).toNat :=
    toUint8Clamp_intCast hpv0 hpv255
  have hrz : ((pixelValue mean stdDev (zs i)).toNat : ℤ) =
      min 255 (max 0 ⌊zs i * stdDev + mean⌋) := by
    rw [Int.toNat_of_nonneg hpv0, pixelValue, ratFloor_eq]
  refine ⟨⟨rfl, rfl, ?_, toUint8Clamp_255⟩, rfl, rfl, ?_, rfl, ?_⟩
  · show ((toUint8Clamp ((pixelValue mean stdDev (zs i) : ℤ) : ℚ) : ℕ) : ℤ) = _
    rw [hr, hrz]
  · show ((toUint8Clamp ((pixelValue mean stdDev (zs i) : ℤ) : ℚ) : ℕ) : ℤ) = _
    rw [hr, hrz]
  · intro k hk h0 h255
    show ((toUint8Clamp (255 * (opacity / 100)) : ℕ) : ℤ) = k
    rw [hk, toUint8Clamp_intCast h0 h255, Int.toNat_of_nonneg h0]

/-- C7 witness: at opacity 20 the alpha value `255 * (20 / 100) = 51` is
an integer in range and is stored exactly. -/
theorem pixel_formula_witness :
    (255 * ((20 : ℚ) / 100) = ((51 : ℤ) : ℚ) ∧ (0 : ℤ) ≤ 51 ∧ (51 : ℤ) ≤ 255) ∧
    ((generateNoisePattern3 128 50 20 (fun _ => 0) 0).a : ℤ) = 51 :=
  ⟨⟨by norm_num, by norm_num, by norm_num⟩,
    (pixel_formula_amended 128 50 20 (fun _ => 0) 0).2.2.2.2.2 51
      (by norm_num) (by norm_num) (by norm_num)⟩

end TailwindNoise
